import Mathlib

/-!
Verification of the horse-history aggregation endpoint of `app.py`
(`api_get_horse_past_data`, lines 300-486) and of the benchmark-time
aggregator described in the specification.

The dataset `df_past_races` is modelled as a list of records.  The loader
(`load_past_race_data`, lines 26-71) drops every row in which one of the
required columns 日付, 馬名, 着順, 場所, トラック種別, 距離, 馬場状態 is null
(line 64), and トラック種別/距離 are produced together by
`parse_distance_and_track_type` (lines 44-54), so in every loaded row those
fields are present and 距離 is numeric.  The fields of the model record are
therefore total, except `finishPosition`: the 着順 column is non-null but may
hold a non-numeric string (中止, 除外, ...), which `int(着順)` at lines 409-412
fails to parse; `none` models exactly that case.
-/

/-- Python's substring test `needle in hay` (`str.contains` on a column),
as containment of character lists. -/
def strContains (hay needle : String) : Bool :=
  decide (needle.data <:+: hay.data)

/-- Python's `str.strip()`: remove whitespace from both ends.
(`String.trim` is extensionally the same but does not reduce in the kernel,
so the list form is used.) -/
def pyStrip (s : String) : String :=
  ⟨((s.data.dropWhile Char.isWhitespace).reverse.dropWhile Char.isWhitespace).reverse⟩

/-- Value of a nonempty list of decimal digits, `none` if empty or if a
non-digit occurs. -/
def digitsVal (l : List Char) : Option Nat :=
  if l = [] then none
  else l.foldl
    (fun acc c =>
      match acc with
      | none => none
      | some n => if c.isDigit then some (n * 10 + (c.toNat - '0'.toNat)) else none)
    (some 0)

/-- Python's `int(s)` on a string: surrounding whitespace allowed, optional
sign, then decimal digits; `none` when the parse fails (the `ValueError`
branch at lines 353-354 and 359-360). -/
def parsePyInt (s : String) : Option Int :=
  match ((s.data.dropWhile Char.isWhitespace).reverse.dropWhile Char.isWhitespace).reverse with
  | '-' :: rest => (digitsVal rest).map (fun n => -(n : Int))
  | '+' :: rest => (digitsVal rest).map (fun n => (n : Int))
  | l => (digitsVal l).map (fun n => (n : Int))

/-- One row of `df_past_races` after the loader's cleanup, restricted to the
columns `api_get_horse_past_data` reads.  Field/column correspondence:
`dateIso` 日付 (already in serialized form), `horseName` 馬名 (trimmed at load,
line 35), `finishPosition` 着順 as parsed by `int` (`none` when unparseable),
`venue` 場所, `trackType` トラック種別 (芝 or ダート from the parser at lines
44-54), `distance` 距離, `groundCondition` 馬場状態. -/
structure PastRaceRecord where
  dateIso : String
  horseName : String
  finishPosition : Option Int
  venue : String
  trackType : String
  distance : Int
  groundCondition : String
deriving DecidableEq, Repr

/-- The query parameters of the endpoint; `none` models an absent parameter
(`request.args.get` returning `None`). -/
structure QueryParams where
  track_type : Option String
  distance_min : Option String
  distance_max : Option String
  venue : Option String
  track_condition : Option String
deriving DecidableEq, Repr

/-- A request with no query parameters. -/
def noParams : QueryParams :=
  { track_type := none, distance_min := none, distance_max := none,
    venue := none, track_condition := none }

/-- Python truthiness of an optional string: `None` and `""` are falsy. -/
def truthy : Option String → Bool
  | none => false
  | some s => !(s == "")

/-- Filter of lines 334-339: keep rows whose トラック種別 equals the
`track_type` parameter, applied only when the parameter is truthy and one of
芝/ダート. -/
def applyTrackTypeFilter (p : Option String) (rows : List PastRaceRecord) :
    List PastRaceRecord :=
  match p with
  | none => rows
  | some t =>
      if t ≠ "" ∧ (t = "芝" ∨ t = "ダート") then
        rows.filter (fun r => r.trackType == t)
      else rows

/-- Filter of lines 341-362: when `distance_min` or `distance_max` is truthy,
restrict to rows inside the parsed bounds; a bound whose `int` parse fails is
skipped (lines 353-354, 359-360).  The dropna/to_numeric steps at lines
345-347 discard rows with missing or non-numeric 距離; the loader (line 64)
already removed those rows, so on loaded data these steps are the identity
and 距離_numeric equals 距離. -/
def applyDistanceFilter (dmin dmax : Option String) (rows : List PastRaceRecord) :
    List PastRaceRecord :=
  if truthy dmin ∨ truthy dmax then
    let rows1 :=
      match dmin with
      | none => rows
      | some s =>
          if s ≠ "" then
            match parsePyInt s with
            | some v => rows.filter (fun r => v ≤ r.distance)
            | none => rows
          else rows
    match dmax with
    | none => rows1
    | some s =>
        if s ≠ "" then
          match parsePyInt s with
          | some v => rows1.filter (fun r => r.distance ≤ v)
          | none => rows1
        else rows1
  else rows

/-- Filter of lines 365-370: keep rows whose 場所 equals the `venue`
parameter, when truthy. -/
def applyVenueFilter (p : Option String) (rows : List PastRaceRecord) :
    List PastRaceRecord :=
  match p with
  | none => rows
  | some v =>
      if v ≠ "" then rows.filter (fun r => r.venue == v) else rows

/-- Filter of lines 372-389: the `track_condition` parameter selects rows by
raw substring containment on 馬場状態 (良 keeps every row containing 良,
稍重 tests the substring 稍, 重 keeps every row containing 重, 不良 tests the
substring 不); any other truthy value leaves the rows unchanged. -/
def applyCondFilter (p : Option String) (rows : List PastRaceRecord) :
    List PastRaceRecord :=
  match p with
  | none => rows
  | some t =>
      if t = "" then rows
      else if t = "良" then rows.filter (fun r => strContains r.groundCondition "良")
      else if t = "稍重" then rows.filter (fun r => strContains r.groundCondition "稍")
      else if t = "重" then rows.filter (fun r => strContains r.groundCondition "重")
      else if t = "不良" then rows.filter (fun r => strContains r.groundCondition "不")
      else rows

/-- The whole filter pipeline of lines 332-392, in source order: track type,
distance bounds, venue, track condition. -/
def ratesFilter (q : QueryParams) (rows : List PastRaceRecord) :
    List PastRaceRecord :=
  applyCondFilter q.track_condition
    (applyVenueFilter q.venue
      (applyDistanceFilter q.distance_min q.distance_max
        (applyTrackTypeFilter q.track_type rows)))

/-- Classification of a 馬場状態 label into a bucket, lines 429-439: the
first matching substring rule wins, in the order 稍重, 不 (or 不良), 重, 良;
a label matching none of them is kept verbatim (line 439). -/
def classifyCondition (c : String) : String :=
  if strContains c "稍重" then "稍重"
  else if strContains c "不" || strContains c "不良" then "不良"
  else if strContains c "重" then "重"
  else if strContains c "良" then "良"
  else c

/-- Per-key counter of lines 452-458. -/
structure Counter where
  total : Nat
  wins : Nat
  top3s : Nat
deriving DecidableEq, Repr

/-- One pass of lines 454-458 over a counter for a record with finishing
position `pos`. -/
def bumpCounter (pos : Int) (c : Counter) : Counter :=
  { total := c.total + 1,
    wins := if pos = 1 then c.wins + 1 else c.wins,
    top3s := if pos ≤ 3 then c.top3s + 1 else c.top3s }

/-- Update of one category dictionary (lines 450-458).  Python dicts keep
insertion order, so the dictionary is an association list: a missing key is
appended at the end with a fresh `(0,0,0)` counter which is bumped at once. -/
def updateAssoc (key : String) (pos : Int) :
    List (String × Counter) → List (String × Counter)
  | [] => [(key, bumpCounter pos ⟨0, 0, 0⟩)]
  | (k, c) :: rest =>
      if k = key then (k, bumpCounter pos c) :: rest
      else (k, c) :: updateAssoc key pos rest

/-- The five category dictionaries of `good_performance_rates_raw`
(lines 397-403), in their literal order. -/
structure RatesRaw where
  distance_track : List (String × Counter)
  racecourse : List (String × Counter)
  track_condition : List (String × Counter)
  distance : List (String × Counter)
  track_type : List (String × Counter)
deriving DecidableEq, Repr

/-- The empty `good_performance_rates_raw`. -/
def emptyRaw : RatesRaw := ⟨[], [], [], [], []⟩

/-- Body of the loop at lines 405-458 for one row.  A row whose 着順 does not
parse is skipped entirely (lines 406-412).  The `pd.notna` guards at lines
420, 426, 429, 441 and 447 always hold on loaded rows (loader line 64), so
the row contributes one key to each of the five categories:
`distance_track` gets 「トラック種別 + 距離 + m」 (line 422), `racecourse`
gets 場所 (line 427), `track_condition` gets the classified bucket (lines
429-439), `distance` gets 「距離 + m」 (line 443) and `track_type` gets the
raw トラック種別 (line 448). -/
def processRecord (acc : RatesRaw) (r : PastRaceRecord) : RatesRaw :=
  match r.finishPosition with
  | none => acc
  | some pos =>
      { distance_track :=
          updateAssoc (r.trackType ++ toString r.distance ++ "m") pos acc.distance_track,
        racecourse := updateAssoc r.venue pos acc.racecourse,
        track_condition :=
          updateAssoc (classifyCondition r.groundCondition) pos acc.track_condition,
        distance := updateAssoc (toString r.distance ++ "m") pos acc.distance,
        track_type := updateAssoc r.trackType pos acc.track_type }

/-- The whole accumulation loop of lines 405-458. -/
def aggregateRaw (rows : List PastRaceRecord) : RatesRaw :=
  rows.foldl processRecord emptyRaw

/-- Python's `round(x, 2)` on the exact rational value: round to a multiple
of 1/100.  (`(q*100+1/2).num / den` is the floor of `q*100 + 1/2` by
`Rat.floor_def`, written without `Int.floor` so that it reduces in the
kernel.  CPython computes on binary doubles and breaks exact ties to even;
on exact halves of a hundredth the two may differ by 1/100 — no claim below
depends on that last ulp.) -/
def round2 (q : ℚ) : ℚ :=
  (((q * 100 + 1 / 2).num / ((q * 100 + 1 / 2).den : ℤ) : ℤ) : ℚ) / 100

/-- One element of a category list in `good_performance_rates`
(lines 471-478). -/
structure PerformanceRateEntry where
  condition : String
  total_races : Nat
  wins : Nat
  top3s : Nat
  win_rate : ℚ
  top3_rate : ℚ
deriving DecidableEq, Repr

/-- Lines 463-478: turn one dictionary item into an emitted entry; the rates
are `wins/total*100` and `top3s/total*100` when `total > 0`, else 0
(lines 468-469), rounded to two decimals (lines 476-477). -/
def mkEntry (kc : String × Counter) : PerformanceRateEntry :=
  { condition := kc.1,
    total_races := kc.2.total,
    wins := kc.2.wins,
    top3s := kc.2.top3s,
    win_rate :=
      round2 (if 0 < kc.2.total then (kc.2.wins : ℚ) / (kc.2.total : ℚ) * 100 else 0),
    top3_rate :=
      round2 (if 0 < kc.2.total then (kc.2.top3s : ℚ) / (kc.2.total : ℚ) * 100 else 0) }

/-- Stable descending insertion by `total_races`: an element moves past
another only when its `total_races` is strictly larger, so equal keys keep
their original relative order — the behaviour of Python's stable
`sorted(key=..., reverse=True)`. -/
def insertDesc (e : PerformanceRateEntry) :
    List PerformanceRateEntry → List PerformanceRateEntry
  | [] => [e]
  | x :: xs =>
      if x.total_races ≤ e.total_races then e :: x :: xs
      else x :: insertDesc e xs

/-- `sorted(..., key=lambda x: x['total_races'], reverse=True)` of lines
480-484, as a stable insertion sort (Python's sort is stable; any stable
sort by the same key yields the identical list). -/
def sortEntries : List PerformanceRateEntry → List PerformanceRateEntry
  | [] => []
  | x :: xs => insertDesc x (sortEntries xs)

/-- Lines 460-484: the final `good_performance_rates` object, as an ordered
key/value list (Python dicts keep insertion order, so the category keys
appear in the order of lines 397-403). -/
def finalRates (raw : RatesRaw) : List (String × List PerformanceRateEntry) :=
  [("distance_track", sortEntries (raw.distance_track.map mkEntry)),
   ("racecourse", sortEntries (raw.racecourse.map mkEntry)),
   ("track_condition", sortEntries (raw.track_condition.map mkEntry)),
   ("distance", sortEntries (raw.distance.map mkEntry)),
   ("track_type", sortEntries (raw.track_type.map mkEntry))]

/-- The endpoint's possible JSON responses: `error status msg` models
`jsonify(.. error ..), status` (line 317 uses status 500); `ok past rates`
models a success payload, where an empty `rates` list is the empty object
`{}` of lines 322 and 395. -/
inductive ApiResponse where
  | error (status : Nat) (msg : String)
  | ok (past_races : List PastRaceRecord)
       (good_performance_rates : List (String × List PerformanceRateEntry))
deriving DecidableEq, Repr

/-- `api_get_horse_past_data` (lines 300-486) over the loaded dataset `db`:
trim the requested name (line 314); empty dataset means error 500 (lines
316-317); no matching rows means an empty success payload (lines 321-322);
otherwise `past_races` is the verbatim unfiltered match set (lines 324-328 —
serialization is the identity here because the model record already carries
the serialized date and total required fields) while rates are computed on
the filtered set (lines 330-486), with the empty object short-circuit of
lines 394-395. -/
def api_get_horse_past_data (db : List PastRaceRecord) (horse_name : String)
    (q : QueryParams) : ApiResponse :=
  let name := pyStrip horse_name
  if db = [] then
    .error 500 "過去データがロードされていません。"
  else
    let matched := db.filter (fun r => r.horseName == name)
    if matched = [] then
      .ok [] []
    else
      let forRates := ratesFilter q matched
      if forRates = [] then
        .ok matched []
      else
        .ok matched (finalRates (aggregateRaw forRates))

/-- The `past_races` component of a response (`none` for an error
response). -/
def pastRacesOf : ApiResponse → Option (List PastRaceRecord)
  | .error _ _ => none
  | .ok past _ => some past

/-- The `good_performance_rates` component of a response. -/
def ratesOf : ApiResponse → List (String × List PerformanceRateEntry)
  | .error _ _ => []
  | .ok _ rates => rates

/-- All entries emitted in any category of a response. -/
def emittedEntries (resp : ApiResponse) : List PerformanceRateEntry :=
  (ratesOf resp).flatMap Prod.snd

/-- Modelled from the spec: the benchmark-time endpoint
`GET /api/benchmark_times/{venue}/{trackAndDistance}/{raceClass}` is absent
from `app.py`; this record holds the fields the spec (sections 3, 4.2, 6)
says it reads — venue, the combined surface+distance token, the race class,
the finishing position, and the two optional corrected-time metrics. -/
structure BenchRecord where
  venue : String
  trackAndDistance : String
  raceClass : String
  finishPosition : Option Int
  correctedTime : Option ℚ
  correctedTime9m : Option ℚ
deriving DecidableEq, Repr

/-- Arithmetic mean of a list of rationals, `none` when the list is empty. -/
def listMean (l : List ℚ) : Option ℚ :=
  if l = [] then none else some (l.sum / (l.length : ℚ))

/-- Modelled from the spec (section 4.2): `computeBenchmarkTimes` filters the
dataset to exact equality on venue, surface+distance token and race class,
restricts further to parseable `finishPosition <= 3`, and returns the means
of `correctedTime` and `correctedTime9m` over that subset, each mean
excluding records with the metric missing; `none` models the empty JSON
result `{}` returned when the subset is empty; `benchPred` is the row
predicate of that filter. -/
def benchPred (venue tad cls : String) (r : BenchRecord) : Bool :=
  r.venue == venue && r.trackAndDistance == tad && r.raceClass == cls &&
    (match r.finishPosition with
     | some p => decide (p ≤ 3)
     | none => false)

def computeBenchmarkTimes (db : List BenchRecord) (venue tad cls : String) :
    Option (Option ℚ × Option ℚ) :=
  let subset := db.filter (benchPred venue tad cls)
  if subset = [] then none
  else some (listMean (subset.filterMap BenchRecord.correctedTime),
             listMean (subset.filterMap BenchRecord.correctedTime9m))

/-! ### Concrete sample data for witnesses and counterexamples -/

/-- Horse A, finished 5th on turf 1600m at Tokyo, going 良. -/
def recA5 : PastRaceRecord :=
  { dateIso := "2025-06-01", horseName := "A", finishPosition := some 5,
    venue := "東京", trackType := "芝", distance := 1600, groundCondition := "良" }

/-- Horse A, finished 2nd on dirt 1200m at Nakayama, going 稍重. -/
def recA2 : PastRaceRecord :=
  { dateIso := "2025-06-08", horseName := "A", finishPosition := some 2,
    venue := "中山", trackType := "ダート", distance := 1200, groundCondition := "稍重" }

/-- Horse A, won on turf 1600m at Tokyo, going 重. -/
def recA1 : PastRaceRecord :=
  { dateIso := "2025-06-15", horseName := "A", finishPosition := some 1,
    venue := "東京", trackType := "芝", distance := 1600, groundCondition := "重" }

/-- Horse A with an unparseable 着順 (中止). -/
def recANone : PastRaceRecord :=
  { dateIso := "2025-06-22", horseName := "A", finishPosition := none,
    venue := "東京", trackType := "芝", distance := 1600, groundCondition := "良" }

/-- Horse B, raced on going 不良. -/
def recB : PastRaceRecord :=
  { dateIso := "2025-07-01", horseName := "B", finishPosition := some 3,
    venue := "京都", trackType := "芝", distance := 2000, groundCondition := "不良" }

/-- A benchmark row matching venue 東京, token 芝1600, class OP, finish 1. -/
def bench1 : BenchRecord :=
  { venue := "東京", trackAndDistance := "芝1600", raceClass := "OP",
    finishPosition := some 1, correctedTime := some 96, correctedTime9m := none }

/-- A three-race dataset for horse A: two turf-1600 races, one dirt-1200. -/
def sampleDb3 : List PastRaceRecord := [recA5, recA2, recA1]

/-- The unsorted `distance_track` entries the endpoint builds for horse A on
`sampleDb3` under no filters. -/
def sampleEntries : List PerformanceRateEntry :=
  (aggregateRaw (ratesFilter noParams
    (sampleDb3.filter (fun r => r.horseName == pyStrip "A")))).distance_track.map mkEntry

/-- The corresponding sorted `distance_track` category list. -/
def sampleDT : List PerformanceRateEntry := sortEntries sampleEntries

/-! ### Helper lemmas -/

/-- The rounding really is the floor-based rounding of the exact value. -/
theorem round2_eq_floor (q : ℚ) : round2 q = ((⌊q * 100 + 1 / 2⌋ : ℤ) : ℚ) / 100 := by
  rw [round2, Rat.floor_def]

theorem round2_nonneg {q : ℚ} (h : 0 ≤ q) : 0 ≤ round2 q := by
  rw [round2_eq_floor]
  have h1 : (0 : ℤ) ≤ ⌊q * 100 + 1 / 2⌋ := by
    rw [Int.floor_nonneg]
    positivity
  positivity

theorem round2_le_hundred {q : ℚ} (h : q ≤ 100) : round2 q ≤ 100 := by
  rw [round2_eq_floor]
  have h1 : ⌊q * 100 + 1 / 2⌋ ≤ ⌊(10000 + 1 / 2 : ℚ)⌋ := by
    apply Int.floor_le_floor
    nlinarith
  have h2 : ⌊(10000 + 1 / 2 : ℚ)⌋ = 10000 := by
    rw [Int.floor_eq_iff] ; norm_num
  rw [h2] at h1
  rw [div_le_iff₀ (by norm_num : (0:ℚ) < 100)]
  calc ((⌊q * 100 + 1 / 2⌋ : ℤ) : ℚ) ≤ ((10000 : ℤ) : ℚ) := by exact_mod_cast h1
    _ = 100 * 100 := by norm_num

theorem round2_zero : round2 0 = 0 := by
  rw [round2_eq_floor]
  norm_num

theorem round2_hundred : round2 100 = 100 := by
  rw [round2_eq_floor]
  have h2 : ⌊(100 * 100 + 1 / 2 : ℚ)⌋ = 10000 := by
    rw [Int.floor_eq_iff] ; norm_num
  rw [h2]
  norm_num

/-- Invariant of every counter stored in a category dictionary: it was
bumped at least once, and wins imply top-3s imply races. -/
def CounterOK (c : Counter) : Prop :=
  0 < c.total ∧ c.wins ≤ c.top3s ∧ c.top3s ≤ c.total

theorem bumpCounter_ok (pos : Int) (c : Counter)
    (h : c.wins ≤ c.top3s ∧ c.top3s ≤ c.total) : CounterOK (bumpCounter pos c) := by
  have h13 : pos = 1 → pos ≤ 3 := by omega
  simp only [CounterOK, bumpCounter]
  split_ifs with h1 h2 h2 <;> simp_all <;> omega

theorem updateAssoc_ok (key : String) (pos : Int) (l : List (String × Counter))
    (hl : ∀ kc ∈ l, CounterOK kc.2) :
    ∀ kc ∈ updateAssoc key pos l, CounterOK kc.2 := by
  induction l with
  | nil =>
      intro kc hkc
      simp only [updateAssoc, List.mem_singleton] at hkc
      subst hkc
      exact bumpCounter_ok pos _ (by simp)
  | cons hd tl ih =>
      intro kc hkc
      obtain ⟨k, c⟩ := hd
      simp only [updateAssoc] at hkc
      split_ifs at hkc with hk
      · rcases List.mem_cons.1 hkc with h | h
        · subst h
          exact bumpCounter_ok pos c ⟨(hl (k, c) (by simp)).2.1, (hl (k, c) (by simp)).2.2⟩
        · exact hl kc (List.mem_cons_of_mem _ h)
      · rcases List.mem_cons.1 hkc with h | h
        · subst h
          exact hl (k, c) (by simp)
        · exact ih (fun kc h2 => hl kc (List.mem_cons_of_mem _ h2)) kc h

/-- The counter invariant over all five category dictionaries. -/
def RawOK (raw : RatesRaw) : Prop :=
  (∀ kc ∈ raw.distance_track, CounterOK kc.2) ∧
  (∀ kc ∈ raw.racecourse, CounterOK kc.2) ∧
  (∀ kc ∈ raw.track_condition, CounterOK kc.2) ∧
  (∀ kc ∈ raw.distance, CounterOK kc.2) ∧
  (∀ kc ∈ raw.track_type, CounterOK kc.2)

theorem processRecord_ok (acc : RatesRaw) (r : PastRaceRecord) (h : RawOK acc) :
    RawOK (processRecord acc r) := by
  obtain ⟨h1, h2, h3, h4, h5⟩ := h
  unfold processRecord
  cases r.finishPosition with
  | none => exact ⟨h1, h2, h3, h4, h5⟩
  | some pos =>
      exact ⟨updateAssoc_ok _ _ _ h1, updateAssoc_ok _ _ _ h2, updateAssoc_ok _ _ _ h3,
             updateAssoc_ok _ _ _ h4, updateAssoc_ok _ _ _ h5⟩

theorem foldl_processRecord_ok (rows : List PastRaceRecord) (acc : RatesRaw)
    (h : RawOK acc) : RawOK (rows.foldl processRecord acc) := by
  induction rows generalizing acc with
  | nil => exact h
  | cons r rest ih => exact ih _ (processRecord_ok acc r h)

theorem aggregateRaw_ok (rows : List PastRaceRecord) : RawOK (aggregateRaw rows) :=
  foldl_processRecord_ok rows emptyRaw (by simp [RawOK, emptyRaw])

theorem mem_insertDesc {e x : PerformanceRateEntry} {l : List PerformanceRateEntry}
    (h : x ∈ insertDesc e l) : x = e ∨ x ∈ l := by
  induction l with
  | nil => exact Or.inl (List.mem_singleton.1 h)
  | cons hd tl ih =>
      simp only [insertDesc] at h
      split_ifs at h with hle
      · rcases List.mem_cons.1 h with h | h
        · exact Or.inl h
        · exact Or.inr h
      · rcases List.mem_cons.1 h with h | h
        · exact Or.inr (h ▸ List.mem_cons_self hd tl)
        · rcases ih h with h | h
          · exact Or.inl h
          · exact Or.inr (List.mem_cons_of_mem _ h)

theorem mem_sortEntries {x : PerformanceRateEntry} {l : List PerformanceRateEntry}
    (h : x ∈ sortEntries l) : x ∈ l := by
  induction l with
  | nil => exact absurd h (List.not_mem_nil x)
  | cons hd tl ih =>
      simp only [sortEntries] at h
      rcases mem_insertDesc h with h | h
      · exact h ▸ List.mem_cons_self hd tl
      · exact List.mem_cons_of_mem _ (ih h)


/-- The rates component of any response is either the empty object or the
object built from the aggregation of the filtered match set. -/
theorem ratesOf_api_cases (db : List PastRaceRecord) (name : String) (q : QueryParams) :
    ratesOf (api_get_horse_past_data db name q) = [] ∨
    ratesOf (api_get_horse_past_data db name q) =
      finalRates (aggregateRaw (ratesFilter q
        (db.filter (fun r => r.horseName == pyStrip name)))) := by
  simp only [api_get_horse_past_data]
  by_cases h1 : db = []
  · simp [h1, ratesOf]
  · simp only [if_neg h1]
    by_cases h2 : db.filter (fun r => r.horseName == pyStrip name) = []
    · simp [h2, ratesOf]
    · simp only [if_neg h2]
      by_cases h3 : ratesFilter q (db.filter (fun r => r.horseName == pyStrip name)) = []
      · simp [h3, ratesOf]
      · simp [if_neg h3, ratesOf]

theorem mem_flatMap_finalRates {raw : RatesRaw} {e : PerformanceRateEntry}
    (hraw : RawOK raw) (h : e ∈ (finalRates raw).flatMap Prod.snd) :
    ∃ kc : String × Counter, CounterOK kc.2 ∧ e = mkEntry kc := by
  obtain ⟨hk1, hk2, hk3, hk4, hk5⟩ := hraw
  simp only [finalRates, List.flatMap_cons, List.flatMap_nil, List.append_nil,
    List.mem_append] at h
  rcases h with h | h | h | h | h <;>
    [skip; skip; skip; skip; skip] <;>
    obtain ⟨kc, hkc, rfl⟩ := List.mem_map.1 (mem_sortEntries h)
  · exact ⟨kc, hk1 kc hkc, rfl⟩
  · exact ⟨kc, hk2 kc hkc, rfl⟩
  · exact ⟨kc, hk3 kc hkc, rfl⟩
  · exact ⟨kc, hk4 kc hkc, rfl⟩
  · exact ⟨kc, hk5 kc hkc, rfl⟩

/-- Every entry emitted by the endpoint comes from a dictionary item whose
counter satisfies the invariant. -/
theorem emittedEntries_sound {db : List PastRaceRecord} {name : String}
    {q : QueryParams} {e : PerformanceRateEntry}
    (h : e ∈ emittedEntries (api_get_horse_past_data db name q)) :
    ∃ kc : String × Counter, CounterOK kc.2 ∧ e = mkEntry kc := by
  rcases ratesOf_api_cases db name q with hc | hc
  · rw [emittedEntries, hc] at h
    simp at h
  · rw [emittedEntries, hc] at h
    exact mem_flatMap_finalRates (aggregateRaw_ok _) h

theorem rate_nonneg (a b : Nat) : 0 ≤ (a : ℚ) / (b : ℚ) * 100 := by positivity

theorem rate_le_hundred {a b : Nat} (hab : a ≤ b) : (a : ℚ) / (b : ℚ) * 100 ≤ 100 := by
  have h1 : (a : ℚ) / (b : ℚ) ≤ 1 := by
    apply div_le_one_of_le₀
    · exact_mod_cast hab
    · positivity
  nlinarith

/-! ### Claims -/

/-- C1, as frozen, is false on the code: an emitted entry can have
`win_rate = 0` while `total_races ≠ 0`.  With the dataset holding one race
of horse A finished 5th, the `distance_track` entry 芝1600m has
`total_races = 1` and `win_rate = 0`. -/
theorem C1_counterexample :
    ∃ e ∈ emittedEntries (api_get_horse_past_data [recA5] "A" noParams),
      e.win_rate = 0 ∧ e.total_races ≠ 0 := by
  refine ⟨mkEntry ("芝1600m", ⟨1, 0, 0⟩), List.Mem.head _, ?_, by simp [mkEntry]⟩
  simp only [mkEntry]
  norm_num [round2_zero]

/-- C1 (amended): in every emitted `PerformanceRateEntry` of every category,
`win_rate` and `top3_rate` lie in [0,100], `total_races > 0` (so the
`else 0` branch of lines 468-469 is unreachable on emitted entries, and a
rate can be 0 with `total_races > 0`), and each rate is the rounded
percentage of its counter: `win_rate = round2(wins/total_races*100)`, and
analogously for `top3_rate`. -/
theorem C1_rates_bounds {db : List PastRaceRecord} {name : String}
    {q : QueryParams} {e : PerformanceRateEntry}
    (h : e ∈ emittedEntries (api_get_horse_past_data db name q)) :
    0 ≤ e.win_rate ∧ e.win_rate ≤ 100 ∧ 0 ≤ e.top3_rate ∧ e.top3_rate ≤ 100 ∧
    0 < e.total_races ∧
    e.win_rate = round2 ((e.wins : ℚ) / (e.total_races : ℚ) * 100) ∧
    e.top3_rate = round2 ((e.top3s : ℚ) / (e.total_races : ℚ) * 100) := by
  obtain ⟨kc, hok, rfl⟩ := emittedEntries_sound h
  obtain ⟨hpos, hwt, htt⟩ := hok
  have hwins : kc.2.wins ≤ kc.2.total := le_trans hwt htt
  simp only [mkEntry, if_pos hpos]
  exact ⟨round2_nonneg (rate_nonneg _ _), round2_le_hundred (rate_le_hundred hwins),
         round2_nonneg (rate_nonneg _ _), round2_le_hundred (rate_le_hundred htt),
         hpos, by trivial, by trivial⟩

/-- Witness for C1 (amended) at the one-race dataset of `recA5`. -/
theorem C1_witness :
    0 ≤ (mkEntry ("芝1600m", ⟨1, 0, 0⟩)).win_rate ∧
    (mkEntry ("芝1600m", ⟨1, 0, 0⟩)).win_rate ≤ 100 ∧
    0 ≤ (mkEntry ("芝1600m", ⟨1, 0, 0⟩)).top3_rate ∧
    (mkEntry ("芝1600m", ⟨1, 0, 0⟩)).top3_rate ≤ 100 ∧
    0 < (mkEntry ("芝1600m", ⟨1, 0, 0⟩)).total_races ∧
    (mkEntry ("芝1600m", ⟨1, 0, 0⟩)).win_rate =
      round2 (((mkEntry ("芝1600m", ⟨1, 0, 0⟩)).wins : ℚ) /
        ((mkEntry ("芝1600m", ⟨1, 0, 0⟩)).total_races : ℚ) * 100) ∧
    (mkEntry ("芝1600m", ⟨1, 0, 0⟩)).top3_rate =
      round2 (((mkEntry ("芝1600m", ⟨1, 0, 0⟩)).top3s : ℚ) /
        ((mkEntry ("芝1600m", ⟨1, 0, 0⟩)).total_races : ℚ) * 100) :=
  @C1_rates_bounds [recA5] "A" noParams _ (List.Mem.head _)

/-- C5: in every emitted category bucket, `wins ≤ top3s ≤ total_races`
(lines 450-458 bump `total` by one per record, `wins` only at 着順 = 1 and
`top3s` at 着順 ≤ 3), and a record without a parseable 着順 contributes to no
counter (lines 406-412 skip it). -/
theorem C5_counter_invariants :
    (∀ (db : List PastRaceRecord) (name : String) (q : QueryParams)
        (e : PerformanceRateEntry),
        e ∈ emittedEntries (api_get_horse_past_data db name q) →
        e.wins ≤ e.top3s ∧ e.top3s ≤ e.total_races ∧ e.wins ≤ e.total_races) ∧
    (∀ (acc : RatesRaw) (r : PastRaceRecord),
        r.finishPosition = none → processRecord acc r = acc) := by
  constructor
  · intro db name q e h
    obtain ⟨kc, ⟨_, hwt, htt⟩, rfl⟩ := emittedEntries_sound h
    exact ⟨hwt, htt, le_trans hwt htt⟩
  · intro acc r h
    simp [processRecord, h]

/-- Witness for C5: the 芝1600m bucket of the one-race dataset, and the
skipped unparseable record `recANone`. -/
theorem C5_witness :
    ((mkEntry ("芝1600m", ⟨1, 0, 0⟩)).wins ≤ (mkEntry ("芝1600m", ⟨1, 0, 0⟩)).top3s ∧
     (mkEntry ("芝1600m", ⟨1, 0, 0⟩)).top3s ≤ (mkEntry ("芝1600m", ⟨1, 0, 0⟩)).total_races ∧
     (mkEntry ("芝1600m", ⟨1, 0, 0⟩)).wins ≤ (mkEntry ("芝1600m", ⟨1, 0, 0⟩)).total_races) ∧
    processRecord emptyRaw recANone = emptyRaw :=
  ⟨C5_counter_invariants.1 [recA5] "A" noParams _ (List.Mem.head _),
   C5_counter_invariants.2 emptyRaw recANone rfl⟩

/-- C2: the `past_races` component is the same for every pair of filter
parameter sets — filters narrow only the rate-computation set (lines
330-392); `past_races` is serialized from the unfiltered match set built at
lines 319-328 before any filter runs. -/
theorem C2_past_races_filter_invariant (db : List PastRaceRecord) (name : String)
    (q1 q2 : QueryParams) :
    pastRacesOf (api_get_horse_past_data db name q1) =
      pastRacesOf (api_get_horse_past_data db name q2) := by
  simp only [api_get_horse_past_data]
  by_cases h1 : db = []
  · simp [h1]
  · simp only [if_neg h1]
    by_cases h2 : db.filter (fun r => r.horseName == pyStrip name) = []
    · simp [h2]
    · simp only [if_neg h2]
      by_cases h3 : ratesFilter q1 (db.filter (fun r => r.horseName == pyStrip name)) = [] <;>
        by_cases h4 : ratesFilter q2 (db.filter (fun r => r.horseName == pyStrip name)) = [] <;>
          simp [h3, h4, pastRacesOf]

/-- C4, as frozen, is false on the code for the empty dataset: line 316
returns the error 500 response, not the empty success payload the claim
demands. -/
theorem C4_counterexample :
    api_get_horse_past_data [] "A" noParams =
      ApiResponse.error 500 "過去データがロードされていません。" ∧
    api_get_horse_past_data [] "A" noParams ≠ ApiResponse.ok [] [] :=
  ⟨rfl, by decide⟩

/-- C4 (amended): when the dataset is non-empty and the trimmed requested
name matches no record, the endpoint returns the empty success payload
(lines 321-322); an empty dataset instead yields the dataset-unavailable
error of lines 316-317. -/
theorem C4_no_match_empty_success {db : List PastRaceRecord} {name : String}
    (q : QueryParams) (hne : db ≠ [])
    (hnm : ∀ r ∈ db, r.horseName ≠ pyStrip name) :
    api_get_horse_past_data db name q = ApiResponse.ok [] [] := by
  simp only [api_get_horse_past_data, if_neg hne]
  have h2 : db.filter (fun r => r.horseName == pyStrip name) = [] := by
    rw [List.filter_eq_nil_iff]
    intro a ha
    simpa using hnm a ha
  simp [h2]

/-- Witness for C4 (amended): horse A is unknown in the dataset holding only
horse B. -/
theorem C4_witness : api_get_horse_past_data [recB] "A" noParams = ApiResponse.ok [] [] :=
  C4_no_match_empty_success noParams (by decide) (by decide)

/-- C8: a request made while the in-memory table is empty (failed or missing
load leaves `df_past_races` an empty frame) gets the data-unavailable error
with failure status 500 (lines 316-317), carrying no data at all. -/
theorem C8_empty_dataset_error (name : String) (q : QueryParams) :
    api_get_horse_past_data [] name q =
      ApiResponse.error 500 "過去データがロードされていません。" := rfl

/-- A label not containing 不 cannot contain 不良 (不 is a substring of
不良, and substring containment is transitive). -/
theorem strContains_fu_of_furyo {c : String} (h : strContains c "不" = false) :
    strContains c "不良" = false := by
  cases hx : strContains c "不良" with
  | false => rfl
  | true =>
      exfalso
      have h2 : strContains c "不" = true := by
        simp only [strContains, decide_eq_true_eq] at hx ⊢
        exact List.IsInfix.trans (by decide) hx
      rw [h2] at h
      exact absurd h (by simp)

/-- C3: the bucket classification of lines 429-439 follows first-matching
precedence 稍重, then 不良, then 重, then 良; consequently a label containing
稍重 is never classified 重, and a label containing 不 is never classified
重 or 良. -/
theorem C3_classification (c : String) :
    (strContains c "稍重" = true → classifyCondition c = "稍重") ∧
    (strContains c "稍重" = false → strContains c "不" = true →
      classifyCondition c = "不良") ∧
    (strContains c "稍重" = false → strContains c "不" = false →
      strContains c "重" = true → classifyCondition c = "重") ∧
    (strContains c "稍重" = false → strContains c "不" = false →
      strContains c "重" = false → strContains c "良" = true →
      classifyCondition c = "良") ∧
    (strContains c "稍重" = true → classifyCondition c ≠ "重") ∧
    (strContains c "不" = true → classifyCondition c ≠ "重" ∧ classifyCondition c ≠ "良") := by
  refine ⟨?_, ?_, ?_, ?_, ?_, ?_⟩
  · intro h1
    simp [classifyCondition, h1]
  · intro h1 h2
    simp [classifyCondition, h1, h2]
  · intro h1 h2 h3
    simp [classifyCondition, h1, h2, h3, strContains_fu_of_furyo h2]
  · intro h1 h2 h3 h4
    simp [classifyCondition, h1, h2, h3, h4, strContains_fu_of_furyo h2]
  · intro h1
    simp only [classifyCondition, h1, if_true]
    decide
  · intro h2
    by_cases h1 : strContains c "稍重" = true
    · simp only [classifyCondition, h1, if_true]
      exact ⟨by decide, by decide⟩
    · simp only [classifyCondition, eq_false_of_ne_true h1, if_false, h2,
        Bool.true_or, if_true]
      exact ⟨by decide, by decide⟩

/-- Witness for C3 at the concrete label 不良: it is bucketed as 不良 and in
particular not as 重 or 良. -/
theorem C3_witness :
    classifyCondition "不良" = "不良" ∧
    classifyCondition "不良" ≠ "重" ∧ classifyCondition "不良" ≠ "良" :=
  ⟨(C3_classification "不良").2.1 (by decide) (by decide),
   ((C3_classification "不良").2.2.2.2.2 (by decide)).1,
   ((C3_classification "不良").2.2.2.2.2 (by decide)).2⟩

/-- C10: the `track_condition` query filter of lines 372-389 selects rows by
raw substring containment on the stored 馬場状態 label, not by classified
bucket: the 良 filter keeps every row whose label contains 良 — including
不良 rows — and the 重 filter keeps every row whose label contains 重 —
including 稍重 rows. -/
theorem C10_condition_filter_raw_substring (rows : List PastRaceRecord)
    (r : PastRaceRecord) (hr : r ∈ rows) :
    (strContains r.groundCondition "良" = true →
      r ∈ applyCondFilter (some "良") rows) ∧
    (strContains r.groundCondition "重" = true →
      r ∈ applyCondFilter (some "重") rows) ∧
    (r.groundCondition = "不良" → r ∈ applyCondFilter (some "良") rows) ∧
    (r.groundCondition = "稍重" → r ∈ applyCondFilter (some "重") rows) := by
  have e1 : applyCondFilter (some "良") rows =
      rows.filter (fun x => strContains x.groundCondition "良") := rfl
  have e2 : applyCondFilter (some "重") rows =
      rows.filter (fun x => strContains x.groundCondition "重") := rfl
  refine ⟨?_, ?_, ?_, ?_⟩
  · intro h
    rw [e1]
    exact List.mem_filter.2 ⟨hr, h⟩
  · intro h
    rw [e2]
    exact List.mem_filter.2 ⟨hr, h⟩
  · intro h
    rw [e1]
    refine List.mem_filter.2 ⟨hr, ?_⟩
    rw [h]
    decide
  · intro h
    rw [e2]
    refine List.mem_filter.2 ⟨hr, ?_⟩
    rw [h]
    decide

/-- Witness for C10: the 不良 row `recB` survives the 良 filter and the
稍重 row `recA2` survives the 重 filter. -/
theorem C10_witness :
    recB ∈ applyCondFilter (some "良") [recB] ∧
    recA2 ∈ applyCondFilter (some "重") [recA2] :=
  ⟨(C10_condition_filter_raw_substring [recB] recB (List.Mem.head _)).2.2.1 rfl,
   (C10_condition_filter_raw_substring [recA2] recA2 (List.Mem.head _)).2.2.2 rfl⟩

theorem insertDesc_pairwise (e : PerformanceRateEntry) (l : List PerformanceRateEntry)
    (h : l.Pairwise (fun a b => b.total_races ≤ a.total_races)) :
    (insertDesc e l).Pairwise (fun a b => b.total_races ≤ a.total_races) := by
  induction l with
  | nil => simp [insertDesc]
  | cons x xs ih =>
      rcases List.pairwise_cons.1 h with ⟨hx, hxs⟩
      simp only [insertDesc]
      split_ifs with hle
      · refine List.pairwise_cons.2 ⟨?_, h⟩
        intro y hy
        rcases List.mem_cons.1 hy with rfl | hy
        · exact hle
        · exact le_trans (hx y hy) hle
      · refine List.pairwise_cons.2 ⟨?_, ih hxs⟩
        intro y hy
        rcases mem_insertDesc hy with rfl | hy
        · omega
        · exact hx y hy

theorem sortEntries_pairwise (l : List PerformanceRateEntry) :
    (sortEntries l).Pairwise (fun a b => b.total_races ≤ a.total_races) := by
  induction l with
  | nil => simp [sortEntries]
  | cons x xs ih => exact insertDesc_pairwise x _ ih

theorem insertDesc_filter_pos (e : PerformanceRateEntry) (l : List PerformanceRateEntry)
    (k : Nat) (he : e.total_races = k) :
    (insertDesc e l).filter (fun x => x.total_races = k) =
      e :: l.filter (fun x => x.total_races = k) := by
  induction l with
  | nil => simp [insertDesc, he]
  | cons x xs ih =>
      simp only [insertDesc]
      split_ifs with hle
      · simp [List.filter_cons, he]
      · have hxk : ¬(x.total_races = k) := by omega
        simp [List.filter_cons, hxk, ih]

theorem insertDesc_filter_neg (e : PerformanceRateEntry) (l : List PerformanceRateEntry)
    (k : Nat) (he : ¬ e.total_races = k) :
    (insertDesc e l).filter (fun x => x.total_races = k) =
      l.filter (fun x => x.total_races = k) := by
  induction l with
  | nil => simp [insertDesc, he]
  | cons x xs ih =>
      simp only [insertDesc]
      split_ifs with hle
      · simp [List.filter_cons, he]
      · simp [List.filter_cons, ih]

theorem sortEntries_filter (l : List PerformanceRateEntry) (k : Nat) :
    (sortEntries l).filter (fun x => x.total_races = k) =
      l.filter (fun x => x.total_races = k) := by
  induction l with
  | nil => rfl
  | cons x xs ih =>
      simp only [sortEntries]
      by_cases hx : x.total_races = k
      · rw [insertDesc_filter_pos _ _ _ hx, ih]
        simp [List.filter_cons, hx]
      · rw [insertDesc_filter_neg _ _ _ hx, ih]
        simp [List.filter_cons, hx]

/-- C6: every category list in `good_performance_rates` is sorted by
`total_races` descending (lines 480-484), and the sort is stable: for every
tie value `k`, the entries with `total_races = k` appear exactly in their
insertion (first-encounter) order. -/
theorem C6_sorted_stable :
    (∀ (db : List PastRaceRecord) (name : String) (q : QueryParams)
        (cat : String) (l : List PerformanceRateEntry),
        (cat, l) ∈ ratesOf (api_get_horse_past_data db name q) →
        l.Pairwise (fun a b => b.total_races ≤ a.total_races)) ∧
    (∀ (l : List PerformanceRateEntry) (k : Nat),
        (sortEntries l).filter (fun x => x.total_races = k) =
          l.filter (fun x => x.total_races = k)) := by
  constructor
  · intro db name q cat l h
    rcases ratesOf_api_cases db name q with hc | hc <;> rw [hc] at h
    · simp at h
    · simp only [finalRates, List.mem_cons, List.not_mem_nil, or_false] at h
      rcases h with h | h | h | h | h <;>
        (rw [Prod.mk.injEq] at h; obtain ⟨-, rfl⟩ := h; exact sortEntries_pairwise _)
  · exact sortEntries_filter

/-- Witness for C6 on the three-race dataset of horse A. -/
theorem C6_witness :
    sampleDT.Pairwise (fun a b => b.total_races ≤ a.total_races) ∧
    (sortEntries sampleEntries).filter (fun x => x.total_races = 1) =
      sampleEntries.filter (fun x => x.total_races = 1) :=
  ⟨C6_sorted_stable.1 sampleDb3 "A" noParams "distance_track" sampleDT (List.Mem.head _),
   C6_sorted_stable.2 sampleEntries 1⟩

theorem applyDistanceFilter_malformed_min (s : String) (hs : parsePyInt s = none)
    (dmax : Option String) (rows : List PastRaceRecord) :
    applyDistanceFilter (some s) dmax rows = applyDistanceFilter none dmax rows := by
  by_cases hsE : s = ""
  · subst hsE
    simp only [applyDistanceFilter, truthy, hs]
    norm_num
  · simp only [applyDistanceFilter, truthy, hs, hsE, if_neg, ne_eq, not_false_iff,
      if_true, beq_iff_eq, Bool.not_eq_true']
    cases dmax with
    | none => simp [hsE]
    | some t =>
        by_cases htE : t = ""
        · subst htE
          simp [hsE]
        · simp [hsE, htE]

theorem applyDistanceFilter_malformed_max (s : String) (hs : parsePyInt s = none)
    (dmin : Option String) (rows : List PastRaceRecord) :
    applyDistanceFilter dmin (some s) rows = applyDistanceFilter dmin none rows := by
  by_cases hsE : s = ""
  · subst hsE
    simp only [applyDistanceFilter, truthy, hs]
    norm_num
  · simp only [applyDistanceFilter, truthy, hs, hsE, if_neg, ne_eq, not_false_iff,
      if_true, beq_iff_eq, Bool.not_eq_true']
    cases dmin with
    | none => simp [hsE]
    | some t =>
        by_cases htE : t = ""
        · subst htE
          simp [hsE]
        · simp [hsE, htE]

/-- C7: a `distance_min` or `distance_max` value whose `int` parse fails is
ignored — the bound is treated as absent and the request is never rejected:
the whole response equals the response with that bound omitted
(lines 341-362). -/
theorem C7_malformed_bound_ignored (db : List PastRaceRecord) (name : String)
    (tt dmin dmax ven tc : Option String) (s : String) (hs : parsePyInt s = none) :
    api_get_horse_past_data db name ⟨tt, some s, dmax, ven, tc⟩ =
      api_get_horse_past_data db name ⟨tt, none, dmax, ven, tc⟩ ∧
    api_get_horse_past_data db name ⟨tt, dmin, some s, ven, tc⟩ =
      api_get_horse_past_data db name ⟨tt, dmin, none, ven, tc⟩ := by
  have h1 : ∀ rows, ratesFilter ⟨tt, some s, dmax, ven, tc⟩ rows =
      ratesFilter ⟨tt, none, dmax, ven, tc⟩ rows := by
    intro rows
    simp only [ratesFilter]
    rw [applyDistanceFilter_malformed_min s hs]
  have h2 : ∀ rows, ratesFilter ⟨tt, dmin, some s, ven, tc⟩ rows =
      ratesFilter ⟨tt, dmin, none, ven, tc⟩ rows := by
    intro rows
    simp only [ratesFilter]
    rw [applyDistanceFilter_malformed_max s hs]
  constructor
  · simp only [api_get_horse_past_data, h1]
  · simp only [api_get_horse_past_data, h2]

/-- Witness for C7: the malformed bound value 12a3 on the one-race dataset. -/
theorem C7_witness :
    api_get_horse_past_data [recA5] "A" ⟨none, some "12a3", none, none, none⟩ =
      api_get_horse_past_data [recA5] "A" ⟨none, none, none, none, none⟩ ∧
    api_get_horse_past_data [recA5] "A" ⟨none, none, some "12a3", none, none⟩ =
      api_get_horse_past_data [recA5] "A" ⟨none, none, none, none, none⟩ :=
  C7_malformed_bound_ignored [recA5] "A" none none none none none "12a3" rfl

theorem benchPred_iff (v t c : String) (r : BenchRecord) :
    benchPred v t c r = true ↔
      (r.venue = v ∧ r.trackAndDistance = t ∧ r.raceClass = c ∧
        ∃ p, r.finishPosition = some p ∧ p ≤ 3) := by
  simp only [benchPred, Bool.and_eq_true, beq_iff_eq, decide_eq_true_eq]
  cases hp : r.finishPosition with
  | none => simp [hp]
  | some p =>
      simp only [hp, decide_eq_true_eq, Option.some.injEq]
      constructor
      · rintro ⟨⟨⟨h1, h2⟩, h3⟩, h4⟩
        exact ⟨h1, h2, h3, p, rfl, h4⟩
      · rintro ⟨h1, h2, h3, p2, rfl, h4⟩
        exact ⟨⟨⟨h1, h2⟩, h3⟩, h4⟩

/-- C9 (benchmark times, spec-modelled): the aggregator returns the empty
result exactly when no row of the dataset matches all three keys with a
top-3 finish; on a `some` result, each average is the mean of the present
metric values of the filtered subset (missing values excluded), and every
mean produced by `listMean` satisfies mean times count = sum. -/
theorem C9_benchmark_times (db : List BenchRecord) (v t c : String) :
    (computeBenchmarkTimes db v t c = none ↔
      ∀ r ∈ db, ¬(r.venue = v ∧ r.trackAndDistance = t ∧ r.raceClass = c ∧
        ∃ p, r.finishPosition = some p ∧ p ≤ 3)) ∧
    (∀ res, computeBenchmarkTimes db v t c = some res →
      res.1 = listMean ((db.filter (benchPred v t c)).filterMap
        BenchRecord.correctedTime) ∧
      res.2 = listMean ((db.filter (benchPred v t c)).filterMap
        BenchRecord.correctedTime9m)) ∧
    (∀ (l : List ℚ) (m : ℚ), listMean l = some m → m * (l.length : ℚ) = l.sum) := by
  refine ⟨?_, ?_, ?_⟩
  · simp only [computeBenchmarkTimes]
    by_cases hsub : db.filter (benchPred v t c) = []
    · simp only [hsub, if_pos, true_iff]
      rw [List.filter_eq_nil_iff] at hsub
      intro r hr hcontra
      exact hsub r hr ((benchPred_iff v t c r).2 hcontra)
    · simp only [if_neg hsub]
      constructor
      · intro h
        exact absurd h (by simp)
      · intro hall
        exfalso
        apply hsub
        rw [List.filter_eq_nil_iff]
        intro r hr hp
        exact hall r hr ((benchPred_iff v t c r).1 hp)
  · intro res hres
    simp only [computeBenchmarkTimes] at hres
    by_cases hsub : db.filter (benchPred v t c) = []
    · simp [hsub] at hres
    · simp only [if_neg hsub, Option.some.injEq] at hres
      rw [← hres]
      exact ⟨rfl, rfl⟩
  · intro l m hm
    simp only [listMean] at hm
    by_cases hl : l = []
    · simp [hl] at hm
    · simp only [if_neg hl, Option.some.injEq] at hm
      have hlen : (l.length : ℚ) ≠ 0 := by
        simp [List.length_eq_zero, hl]
      rw [← hm, div_mul_cancel₀ _ hlen]

/-- Witness for C9 on the one-row benchmark dataset `bench1`. -/
theorem C9_witness :
    ((listMean (([bench1].filter (benchPred "東京" "芝1600" "OP")).filterMap
          BenchRecord.correctedTime),
      listMean (([bench1].filter (benchPred "東京" "芝1600" "OP")).filterMap
          BenchRecord.correctedTime9m)).1 =
      listMean (([bench1].filter (benchPred "東京" "芝1600" "OP")).filterMap
          BenchRecord.correctedTime) ∧
     (listMean (([bench1].filter (benchPred "東京" "芝1600" "OP")).filterMap
          BenchRecord.correctedTime),
      listMean (([bench1].filter (benchPred "東京" "芝1600" "OP")).filterMap
          BenchRecord.correctedTime9m)).2 =
      listMean (([bench1].filter (benchPred "東京" "芝1600" "OP")).filterMap
          BenchRecord.correctedTime9m)) ∧
    (96 : ℚ) * (([(96 : ℚ)].length : ℚ)) = [(96 : ℚ)].sum :=
  ⟨(C9_benchmark_times [bench1] "東京" "芝1600" "OP").2.1 _ rfl,
   (C9_benchmark_times [bench1] "東京" "芝1600" "OP").2.2 [(96 : ℚ)] 96
     (by simp [listMean])⟩
